import Mathlib

/-!
Verification of the LASIF iteration registry (`lasif/components/iterations.py`)
and the CLI command resolver / status aggregator described by the project
specification.  The registry definitions below are a shallow embedding of the
Python source: the backing directory is modelled as a flat association list
from file basenames to stored entities, serialization is the identity on
entities (the XML schema is an opaque external collaborator), and Python
exceptions are modelled as an `Except` error type whose constructors carry the
source's exception kinds.
-/

namespace Lasif

/-- Error kinds raised by the iterations component.  `ValueError` and
`LASIFNotFoundError` are the two exception types raised by the Python source;
`IOError` stands for an underlying I/O fault propagating unchanged. -/
inductive Err where
  | ValueError : String → Err
  | LASIFNotFoundError : String → Err
  | IOError : Err
deriving DecidableEq, Repr

/-- The iteration entity (`lasif.iteration_xml.Iteration`).  Only the fields
the component reads or writes are modelled; the XML payload beyond them is
opaque.  Periods are carried opaquely (never computed with), so they are
modelled as integers. -/
structure Iteration where
  iteration_name : String
  comments : List String
  solver_name : String
  events : List (String × List String)
  min_period : Int
  max_period : Int
deriving DecidableEq, Repr

/-- Modelled collaborator (`lasif.iteration_xml.create_iteration_xml_string`
is outside the given sources): serialization is the identity on entities, and
a freshly created iteration carries no comments. -/
def create_iteration_xml_string (iteration_name solver_name : String)
    (events_dict : List (String × List String)) (min_period max_period : Int) :
    Iteration :=
  { iteration_name := iteration_name, comments := [], solver_name := solver_name,
    events := events_dict, min_period := min_period, max_period := max_period }

/-- The state of `IterationsComponent`: the iterations folder path and the
folder's contents as an association list from file basename to file content
(file contents are deserialized entities, serialization being the identity). -/
structure IterationsComponent where
  folder : String
  files : List (String × Iteration)
deriving DecidableEq, Repr

namespace IterationsComponent

/-- `os.path.join(folder, name)`: paths are plain strings joined with "/". -/
def pathJoin (folder name : String) : String :=
  folder ++ "/" ++ name

/-- `get_long_iteration_name`: `"ITERATION_%s" % iteration_name`. -/
def get_long_iteration_name (iteration_name : String) : String :=
  "ITERATION_" ++ iteration_name

/-- `_get_filename_for_iteration`: `os.path.join(folder, long_name + os.path.extsep + "xml")`. -/
def _get_filename_for_iteration (c : IterationsComponent) (iteration_name : String) : String :=
  pathJoin c.folder (get_long_iteration_name iteration_name ++ "." ++ "xml")

/-- The glob pattern `ITERATION_*.xml` on a basename: the directory model is
flat, so `*` matches any character string. -/
def globMatch (n : String) : Bool :=
  "ITERATION_".data.isPrefixOf n.data && ".xml".data.isSuffixOf n.data

/-- Key derivation of `get_iteration_dict`:
`os.path.splitext(os.path.basename(f))[0][10:]` — strip the `.xml` extension
(4 characters, the final extension of every globbed name) and the fixed
10-character `ITERATION_` prefix. -/
def iterationKey (n : String) : String :=
  ⟨(n.data.take (n.data.length - 4)).drop 10⟩

/-- `get_iteration_dict`: scan the folder for files matching
`ITERATION_*.xml` and map each derived short name to the file's absolute
path. -/
def get_iteration_dict (c : IterationsComponent) : List (String × String) :=
  ((c.files.map Prod.fst).filter globMatch).map
    (fun n => (iterationKey n, pathJoin c.folder n))

/-- Python `k in d` for a dict modelled as an association list. -/
def dictContains (d : List (String × String)) (k : String) : Bool :=
  (d.find? (fun kv => kv.1 == k)).isSome

/-- Python `d[k]` for a dict modelled as an association list. -/
def dictGet (d : List (String × String)) (k : String) : Option String :=
  (d.find? (fun kv => kv.1 == k)).map (fun kv => kv.2)

/-- `list`: `sorted(self.get_iteration_dict().keys())`. -/
def list (c : IterationsComponent) : List String :=
  List.insertionSort (· ≤ ·) ((get_iteration_dict c).map Prod.fst)

/-- `count`: `len(self.get_iteration_dict())`. -/
def count (c : IterationsComponent) : Nat :=
  (get_iteration_dict c).length

/-- `has_iteration`: `iteration_name in self.get_iteration_dict()`. -/
def has_iteration (c : IterationsComponent) (iteration_name : String) : Bool :=
  dictContains (get_iteration_dict c) iteration_name

/-- Reading the file at an absolute path inside the component's folder:
strip the `<folder>/` prefix and look the basename up in the directory. -/
def readFile (c : IterationsComponent) (path : String) : Option Iteration :=
  (c.files.find? (fun f => f.1 == (⟨path.data.drop (c.folder.data.length + 1)⟩ : String))).map
    (fun f => f.2)

/-- Writing a file with the given basename: overwrite the existing entry or
append a new one. -/
def writeFile (c : IterationsComponent) (basename : String) (it : Iteration) :
    IterationsComponent :=
  if c.files.any (fun f => f.1 == basename) then
    { c with files := c.files.map (fun f => if f.1 == basename then (basename, it) else f) }
  else
    { c with files := c.files ++ [(basename, it)] }

/-- Writing a file at an absolute path inside the component's folder. -/
def writeFileAtPath (c : IterationsComponent) (path : String) (it : Iteration) :
    IterationsComponent :=
  writeFile c ⟨path.data.drop (c.folder.data.length + 1)⟩ it

/-- `create_new_iteration`: raise `ValueError` if the name is already a key of
`get_iteration_dict`, otherwise serialize a fresh entity and write it to
`_get_filename_for_iteration(iteration_name)`. -/
def create_new_iteration (c : IterationsComponent) (iteration_name solver_name : String)
    (events_dict : List (String × List String)) (min_period max_period : Int) :
    Except Err IterationsComponent :=
  if dictContains (get_iteration_dict c) iteration_name then
    .error (.ValueError ("Iteration " ++ iteration_name ++ " already exists."))
  else
    .ok (writeFileAtPath c (_get_filename_for_iteration c iteration_name)
      (create_iteration_xml_string iteration_name solver_name events_dict
        min_period max_period))

/-- `save_iteration`: write the entity to the filename derived from its own
`iteration_name`, unconditionally. -/
def save_iteration (c : IterationsComponent) (iteration : Iteration) :
    IterationsComponent :=
  writeFileAtPath c (_get_filename_for_iteration c iteration.iteration_name) iteration

/-- `create_successive_iteration`: `LASIFNotFoundError` if the source name is
not a key of `get_iteration_dict`, `ValueError` if the destination name is,
otherwise load the source entity, clear its comments, rename it and save it.
The Python membership test and dict subscript are fused into one lookup; a
failing read of the looked-up path would be an I/O fault. -/
def create_successive_iteration (c : IterationsComponent)
    (existing_iteration_name new_iteration_name : String) :
    Except Err IterationsComponent :=
  match (get_iteration_dict c).find? (fun kv => kv.1 == existing_iteration_name) with
  | none => .error (.LASIFNotFoundError
      ("Iteration " ++ existing_iteration_name ++ " does not exists."))
  | some kv =>
    if dictContains (get_iteration_dict c) new_iteration_name then
      .error (.ValueError ("Iteration " ++ new_iteration_name ++ " already exists."))
    else
      match readFile c kv.2 with
      | none => .error .IOError
      | some existing_iteration =>
        .ok (save_iteration c
          { existing_iteration with comments := [], iteration_name := new_iteration_name })

/-- `get`: `LASIFNotFoundError` if the name is not a key of
`get_iteration_dict`, otherwise load and return the entity at the looked-up
path.  The membership test and dict subscript are fused into one lookup. -/
def get (c : IterationsComponent) (iteration_name : String) : Except Err Iteration :=
  match (get_iteration_dict c).find? (fun kv => kv.1 == iteration_name) with
  | none => .error (.LASIFNotFoundError
      ("Iteration '" ++ iteration_name ++ "' not found."))
  | some kv =>
    match readFile c kv.2 with
    | none => .error .IOError
    | some it => .ok it

end IterationsComponent

/-! ## Command Resolver (spec-modelled)

The CLI dispatch code (`lasif/scripts/lasif_cli.py`) is not among the given
sources; only its tests are.  The definitions in this section are therefore
modelled from the specification (§4.3): case-insensitive exact lookup, else a
fuzzy suggester built on a similarity score tolerant of small edits and
common substring overlap, with a minimum-similarity cutoff and a tie band
calibrated against the specification's worked examples. -/

/-- One step of the longest-common-subsequence dynamic program: walk the
remaining cells of a row.  `diag`, `p` and `left` are the
upper-left, upper and left neighbours of the cell being filled. -/
def lcsGo (c : Char) : List Char → List Nat → Nat → Nat → List Nat
  | b :: bs, p :: ps, diag, left =>
    let v := if c = b then diag + 1 else max p left
    v :: lcsGo c bs ps p v
  | _, _, _, _ => []

/-- One full row of the longest-common-subsequence dynamic program. -/
def lcsRow (c : Char) (b : List Char) : List Nat → List Nat
  | p :: ps => 0 :: lcsGo c b ps p 0
  | [] => []

/-- Length of a longest common subsequence of two character lists. -/
def lcsLen (a b : List Char) : Nat :=
  (a.foldl (fun row c => lcsRow c b row) (List.replicate (b.length + 1) 0)).getLastD 0

/-- Modelled from the spec: the similarity score between an input token and a
canonical name is `2·M/T`, with `M` the longest-common-subsequence length and
`T` the total length — an edit-tolerant, common-substring-overlap metric.  The
pair `(M, T)` represents the score `2·M/T`; comparisons cross-multiply. -/
def scorePair (input nm : String) : Nat × Nat :=
  (lcsLen input.data nm.data, input.data.length + nm.data.length)

/-- Modelled from the spec: the minimum-similarity cutoff, calibrated against
the worked examples to `0.6`, i.e. `2·M/T ≥ 3/5`. -/
def clearsCutoff (s : Nat × Nat) : Bool :=
  3 * s.2 ≤ 10 * s.1

/-- Score comparison `s ≥ t` by cross-multiplication. -/
def scoreGe (s t : Nat × Nat) : Bool :=
  t.1 * s.2 ≤ s.1 * t.2

/-- Modelled from the spec: the tie band, calibrated against the worked
examples to width `0.3` below the best score: `2·s₁/s₂ ≥ 2·b₁/b₂ − 3/10`. -/
def withinBand (s best : Nat × Nat) : Bool :=
  20 * best.1 * s.2 ≤ 20 * s.1 * best.2 + 3 * (s.2 * best.2)

/-- Ascending lexicographic (code-point) comparison of character lists. -/
def charListLe : List Char → List Char → Bool
  | [], _ => true
  | _ :: _, [] => false
  | a :: as, b :: bs => if a = b then charListLe as bs else decide (a < b)

/-- Ascending lexicographic (code-point) comparison of strings. -/
def strLe (a b : String) : Bool :=
  charListLe a.data b.data

/-- Insert a string into a lexicographically sorted list. -/
def insertSorted (s : String) : List String → List String
  | [] => [s]
  | t :: ts => if strLe s t then s :: t :: ts else t :: insertSorted s ts

/-- Ascending lexicographic sort of a list of strings. -/
def sortStrings (l : List String) : List String :=
  l.foldr insertSorted []

/-- Modelled from the spec: the fuzzy suggester.  Candidates clearing the
minimum-similarity cutoff and lying within the tie band of the best-scoring
candidate are returned, sorted lexicographically ascending; when no candidate
clears the cutoff the result is empty. -/
def suggestions (names : List String) (input : String) : List String :=
  let candidates := names.filter (fun nm => clearsCutoff (scorePair input nm))
  let best := (candidates.map (scorePair input)).foldl
    (fun b s => if scoreGe s b then s else b) (0, 1)
  sortStrings (candidates.filter (fun nm => withinBand (scorePair input nm) best))

/-- Modelled from the spec: case normalization of a command token — lower-case
every character. -/
def lowerName (s : String) : String :=
  ⟨s.data.map Char.toLower⟩

/-- Modelled from the spec: the resolution outcome sum type,
`Resolved(handler) | Unknown(candidates)`. -/
inductive Resolution (α : Type) where
  | Resolved : α → Resolution α
  | Unknown : List String → Resolution α
deriving DecidableEq, Repr

/-- Modelled from the spec: the Command Resolver.  Normalize the input token
and the canonical names to lower case and look for an exact match; on a miss,
return the fuzzy suggestions as a normal (non-error) outcome. -/
def resolveCommand {α : Type} (table : List (String × α)) (input : String) :
    Resolution α :=
  match table.find? (fun e => lowerName e.1 == lowerName input) with
  | some e => .Resolved e.2
  | none => .Unknown (suggestions (table.map Prod.fst) input)

/-- Modelled from the spec: dispatch invokes the resolved handler exactly
once and invokes nothing on an unknown input; the result is the list of
handler invocations. -/
def dispatchTrace {α : Type} (table : List (String × α)) (input : String) :
    List α :=
  match resolveCommand table input with
  | .Resolved h => [h]
  | .Unknown _ => []

/-! ## Status Aggregator (spec-modelled)

The `iteration_status` command implementation is not among the given sources;
only its test is.  The definitions are modelled from the specification (§4.4);
the header's count word is the literal `events:` of the spec's quoted template
and of the worked example. -/

/-- Per-event statistics handed to the Status Aggregator by its external
collaborators. -/
structure EventStatus where
  event_id : String
  stations_with_processed_data : Nat
  stations_with_synthetics : Nat
  total_stations : Nat
  fraction_with_picked_windows : Rat
deriving DecidableEq, Repr

/-- Two-decimal rendering of a percentage value given as a fraction of one:
`pct` is `q·100`, shown with exactly two decimal digits.  `cents` is
`⌊q·10000 + 1/2⌋`, computed by integer floor division on the fraction's
numerator and denominator (half-up rounding models the formatting of the
worked examples, which only exercise exact values). -/
def formatPercent (q : Rat) : String :=
  let cents : Int := Int.fdiv (20000 * q.num + q.den) (2 * q.den)
  let whole := cents / 100
  let frac := (cents % 100).toNat
  toString whole ++ "." ++ (if frac < 10 then "0" else "") ++ toString frac

/-- Modelled from the spec: the per-event block of the status report — the
event identifier, the picked-window percentage line, and the two "Lacks ..."
lines, each included only when its respective deficit is positive. -/
def eventLines (e : EventStatus) : List String :=
  [e.event_id,
   formatPercent e.fraction_with_picked_windows ++
     " % of the events stations have picked windows"]
  ++ (let k := e.total_stations - e.stations_with_processed_data
      if 0 < k then ["Lacks processed data for " ++ toString k ++ " stations"] else [])
  ++ (let k := e.total_stations - e.stations_with_synthetics
      if 0 < k then ["Lacks synthetic data for " ++ toString k ++ " stations"] else [])

/-- Modelled from the spec: the full status report — the header line followed
by each event's block in the iteration's stored event order. -/
def iteration_status (name : String) (events : List EventStatus) : List String :=
  ("Iteration " ++ name ++ " is defined for " ++ toString events.length ++ " events:")
  :: (events.map eventLines).flatten

/-! ## Concrete example states used by witnesses -/

/-- The iteration of the doctest fixture: short name "1" with two comments. -/
def exampleIteration : Iteration :=
  ⟨"1", ["Some", "random comments"], "ses3d_4_1",
    [("EVENT_1", ["AA.BB", "CC.DD"]), ("EVENT_2", ["EE.FF"])], 10, 20⟩

/-- A registry folder holding the example iteration and one non-matching
file. -/
def exampleComponent : IterationsComponent :=
  ⟨"ROOT", [("ITERATION_1.xml", exampleIteration),
            ("config.xml", ⟨"cfg", [], "", [], 0, 0⟩)]⟩

/-- A command table of canonical LASIF command names with distinct handler
identifiers. -/
def commandTable : List (String × Nat) :=
  [("info", 0), ("init_project", 1), ("list_events", 2), ("list_models", 3),
   ("plot_event", 4), ("plot_events", 5), ("plot_windows", 6), ("plot_domain", 7),
   ("plot_stf", 8), ("download_data", 9), ("preprocess_data", 10),
   ("iteration_status", 11), ("tutorial", 12), ("event_info", 13),
   ("iteration_info", 14)]

/-! ## Helper lemmas -/

theorem isPrefixOf_append_self (l t : List Char) : l.isPrefixOf (l ++ t) = true := by
  induction l with
  | nil => simp [List.isPrefixOf]
  | cons a as ih => simp [List.isPrefixOf, ih]

theorem isSuffixOf_append_self (r x : List Char) : x.isSuffixOf (r ++ x) = true := by
  simp [List.isSuffixOf, List.reverse_append, isPrefixOf_append_self]

theorem eq_append_of_isPrefixOf {l n : List Char} (h : l.isPrefixOf n = true) :
    ∃ t, n = l ++ t := by
  induction l generalizing n with
  | nil => exact ⟨n, rfl⟩
  | cons a as ih =>
    cases n with
    | nil => simp [List.isPrefixOf] at h
    | cons b bs =>
      simp only [List.isPrefixOf, Bool.and_eq_true, beq_iff_eq] at h
      obtain ⟨rfl, h2⟩ := h
      obtain ⟨t, rfl⟩ := ih h2
      exact ⟨t, rfl⟩

theorem eq_append_of_isSuffixOf {x n : List Char} (h : x.isSuffixOf n = true) :
    ∃ r, n = r ++ x := by
  obtain ⟨t, ht⟩ := eq_append_of_isPrefixOf (show x.reverse.isPrefixOf n.reverse = true by
    simpa [List.isSuffixOf] using h)
  refine ⟨t.reverse, ?_⟩
  have h2 := congrArg List.reverse ht
  simpa using h2

namespace IterationsComponent

theorem strip_pathJoin (folder n : String) :
    (⟨(pathJoin folder n).data.drop (folder.data.length + 1)⟩ : String) = n := by
  apply String.ext
  show (pathJoin folder n).data.drop (folder.data.length + 1) = n.data
  have h1 : (pathJoin folder n).data = (folder.data ++ ['/']) ++ n.data := rfl
  rw [h1]
  exact List.drop_left' (by simp)

theorem writeFileAtPath_pathJoin (c : IterationsComponent) (n : String) (it : Iteration) :
    writeFileAtPath c (pathJoin c.folder n) it = writeFile c n it := by
  unfold writeFileAtPath
  rw [strip_pathJoin]

theorem readFile_pathJoin (c : IterationsComponent) (n : String) :
    readFile c (pathJoin c.folder n)
      = (c.files.find? (fun f => f.1 == n)).map (fun f => f.2) := by
  unfold readFile
  rw [strip_pathJoin]

theorem bname_data (k : String) :
    (get_long_iteration_name k ++ "." ++ "xml").data
      = "ITERATION_".data ++ (k.data ++ ".xml".data) := by
  have h1 : (get_long_iteration_name k ++ "." ++ "xml").data
      = (("ITERATION_".data ++ k.data) ++ ['.']) ++ "xml".data := rfl
  rw [h1]
  simp [List.append_assoc]

theorem globMatch_of_shape (k : String) :
    globMatch (get_long_iteration_name k ++ "." ++ "xml") = true := by
  unfold globMatch
  rw [bname_data, Bool.and_eq_true]
  constructor
  · exact isPrefixOf_append_self _ _
  · rw [← List.append_assoc]
    exact isSuffixOf_append_self _ _

theorem iterationKey_of_shape (k : String) :
    iterationKey (get_long_iteration_name k ++ "." ++ "xml") = k := by
  apply String.ext
  show (((get_long_iteration_name k ++ "." ++ "xml").data.take
      ((get_long_iteration_name k ++ "." ++ "xml").data.length - 4)).drop 10) = k.data
  rw [bname_data, ← List.append_assoc]
  have hlen : (("ITERATION_".data ++ k.data) ++ ".xml".data).length - 4
      = ("ITERATION_".data ++ k.data).length := by
    simp
  rw [hlen, List.take_left]
  exact List.drop_left' (by simp)

theorem get_iteration_dict_append (c : IterationsComponent) (n : String) (it : Iteration) :
    get_iteration_dict { c with files := c.files ++ [(n, it)] }
      = get_iteration_dict c
        ++ (if globMatch n then [(iterationKey n, pathJoin c.folder n)] else []) := by
  by_cases h : globMatch n = true
  · simp [get_iteration_dict, h]
  · simp only [Bool.not_eq_true] at h
    simp [get_iteration_dict, h]

theorem exists_of_mem_dict {c : IterationsComponent} {kv : String × String}
    (h : kv ∈ get_iteration_dict c) :
    ∃ n, n ∈ c.files.map Prod.fst ∧ globMatch n = true
      ∧ kv = (iterationKey n, pathJoin c.folder n) := by
  unfold get_iteration_dict at h
  obtain ⟨n, hn, rfl⟩ := List.mem_map.mp h
  have h2 := List.mem_filter.mp hn
  exact ⟨n, h2.1, h2.2, rfl⟩

theorem readFile_isSome_of_mem {c : IterationsComponent} {n : String}
    (h : n ∈ c.files.map Prod.fst) :
    ∃ it, readFile c (pathJoin c.folder n) = some it := by
  rw [readFile_pathJoin]
  obtain ⟨f, hf, rfl⟩ := List.mem_map.mp h
  have h2 : (c.files.find? (fun g => g.1 == f.1)).isSome :=
    List.find?_isSome.mpr ⟨f, hf, by simp⟩
  obtain ⟨g, hg⟩ := Option.isSome_iff_exists.mp h2
  exact ⟨g.2, by rw [hg]; rfl⟩

theorem find?_dict_of_has {c : IterationsComponent} {k : String}
    (h : has_iteration c k = true) :
    ∃ kv, (get_iteration_dict c).find? (fun kv => kv.1 == k) = some kv
      ∧ kv.1 = k ∧ ∃ it, readFile c kv.2 = some it := by
  unfold has_iteration dictContains at h
  obtain ⟨kv, hkv⟩ := Option.isSome_iff_exists.mp h
  refine ⟨kv, hkv, by simpa using List.find?_some hkv, ?_⟩
  obtain ⟨n, hn, _, hkveq⟩ := exists_of_mem_dict (List.mem_of_find?_eq_some hkv)
  obtain ⟨it, hit⟩ := readFile_isSome_of_mem hn
  exact ⟨it, by rw [hkveq]; exact hit⟩

theorem find?_dict_eq_none_of_not_has {c : IterationsComponent} {k : String}
    (h : has_iteration c k = false) :
    (get_iteration_dict c).find? (fun kv => kv.1 == k) = none := by
  unfold has_iteration dictContains at h
  exact Option.not_isSome_iff_eq_none.mp (by simp [h])

theorem no_file_of_not_has {c : IterationsComponent} {k : String}
    (h : has_iteration c k = false) :
    c.files.any (fun f => f.1 == (get_long_iteration_name k ++ "." ++ "xml")) = false := by
  by_contra hc
  rw [Bool.not_eq_false] at hc
  obtain ⟨f, hf, hfeq⟩ := List.any_eq_true.mp hc
  have hb : f.1 = get_long_iteration_name k ++ "." ++ "xml" := by simpa using hfeq
  have hmem : (iterationKey f.1, pathJoin c.folder f.1) ∈ get_iteration_dict c := by
    unfold get_iteration_dict
    apply List.mem_map.mpr
    refine ⟨f.1, List.mem_filter.mpr ⟨List.mem_map.mpr ⟨f, hf, rfl⟩, ?_⟩, rfl⟩
    rw [hb]
    exact globMatch_of_shape k
  have hT : has_iteration c k = true := by
    unfold has_iteration dictContains
    have hx : ((get_iteration_dict c).find? (fun kv => kv.1 == k)).isSome :=
      List.find?_isSome.mpr ⟨_, hmem, by simp [hb, iterationKey_of_shape]⟩
    simpa using hx
  rw [h] at hT
  exact Bool.false_ne_true hT

theorem bname_eq (k : String) :
    get_long_iteration_name k ++ "." ++ "xml" = "ITERATION_" ++ k ++ ".xml" := by
  apply String.ext
  have h1 : (get_long_iteration_name k ++ "." ++ "xml").data
      = (("ITERATION_".data ++ k.data) ++ ['.']) ++ ['x', 'm', 'l'] := rfl
  have h2 : ("ITERATION_" ++ k ++ ".xml").data
      = ("ITERATION_".data ++ k.data) ++ ['.', 'x', 'm', 'l'] := rfl
  rw [h1, h2]
  simp [List.append_assoc]

theorem find?_files_eq_none_of_not_has {c : IterationsComponent} {k : String}
    (h : has_iteration c k = false) :
    c.files.find? (fun f => f.1 == (get_long_iteration_name k ++ "." ++ "xml")) = none := by
  rw [List.find?_eq_none]
  intro x hx hpx
  exact (List.any_eq_false.mp (no_file_of_not_has h)) x hx hpx

theorem get_eq_ok_of_has {c : IterationsComponent} {k : String}
    (h : has_iteration c k = true) :
    ∃ kv it, (get_iteration_dict c).find? (fun kv => kv.1 == k) = some kv
      ∧ readFile c kv.2 = some it ∧ get c k = .ok it := by
  obtain ⟨kv, hkv, hk1, it, hit⟩ := find?_dict_of_has h
  exact ⟨kv, it, hkv, hit, by simp [get, hkv, hit]⟩

theorem get_eq_notfound_of_not_has {c : IterationsComponent} {k : String}
    (h : has_iteration c k = false) :
    get c k = .error (.LASIFNotFoundError ("Iteration '" ++ k ++ "' not found.")) := by
  simp [get, find?_dict_eq_none_of_not_has h]

theorem create_successive_iteration_of_has {c : IterationsComponent} {a b : String}
    (ha : has_iteration c a = true) (hb : has_iteration c b = false) :
    ∃ src, get c a = .ok src
      ∧ create_successive_iteration c a b
          = .ok ⟨c.folder, c.files
              ++ [(get_long_iteration_name b ++ "." ++ "xml",
                   { src with comments := [], iteration_name := b })]⟩ := by
  obtain ⟨kv, it, hkv, hit, hget⟩ := get_eq_ok_of_has ha
  refine ⟨it, hget, ?_⟩
  have hcb : dictContains (get_iteration_dict c) b = false := hb
  simp only [create_successive_iteration, hkv, hcb, Bool.false_eq_true, if_false, hit]
  unfold save_iteration _get_filename_for_iteration
  have hproj : ({ it with comments := [], iteration_name := b } : Iteration).iteration_name
      = b := rfl
  rw [hproj, writeFileAtPath_pathJoin]
  unfold writeFile
  rw [no_file_of_not_has hb]
  simp

theorem readFile_append_new {c : IterationsComponent} {k : String}
    (hk : has_iteration c k = false) (ent : Iteration) :
    readFile ⟨c.folder, c.files ++ [(get_long_iteration_name k ++ "." ++ "xml", ent)]⟩
        (pathJoin c.folder (get_long_iteration_name k ++ "." ++ "xml")) = some ent := by
  rw [readFile_pathJoin]
  rw [show (⟨c.folder, c.files ++ [(get_long_iteration_name k ++ "." ++ "xml", ent)]⟩ :
      IterationsComponent).files
    = c.files ++ [(get_long_iteration_name k ++ "." ++ "xml", ent)] from rfl]
  rw [List.find?_append, find?_files_eq_none_of_not_has hk]
  simp

theorem readFile_append_old {c : IterationsComponent} {n : String} (e : String × Iteration)
    (hn : n ∈ c.files.map Prod.fst) :
    readFile ⟨c.folder, c.files ++ [e]⟩ (pathJoin c.folder n)
      = readFile c (pathJoin c.folder n) := by
  rw [readFile_pathJoin, readFile_pathJoin]
  obtain ⟨f, hf, rfl⟩ := List.mem_map.mp hn
  have hs : (c.files.find? (fun g => g.1 == f.1)).isSome :=
    List.find?_isSome.mpr ⟨f, hf, by simp⟩
  obtain ⟨g, hg⟩ := Option.isSome_iff_exists.mp hs
  simp [List.find?_append, hg]

theorem glob_decomp {n : String} (h : globMatch n = true) :
    n.data = "ITERATION_".data ++ ((iterationKey n).data ++ ".xml".data) := by
  unfold globMatch at h
  rw [Bool.and_eq_true] at h
  obtain ⟨t, ht⟩ := eq_append_of_isPrefixOf h.1
  obtain ⟨r, hr⟩ := eq_append_of_isSuffixOf h.2
  have hkey : (iterationKey n).data = (n.data.take (n.data.length - 4)).drop 10 := rfl
  have hIlen : ("ITERATION_".data).length = 10 := rfl
  have hXlen : (".xml".data).length = 4 := rfl
  rcases Nat.lt_or_ge r.length 10 with hlt | hge
  · exfalso
    have h10 : ("ITERATION_".data) = (r ++ ".xml".data).take 10 := by
      rw [← hr, ht, List.take_left' hIlen]
    rw [List.take_append_eq_append_take, List.take_of_length_le (Nat.le_of_lt hlt)] at h10
    have hm : 10 - r.length = (9 - r.length) + 1 := by omega
    rw [hm, show (".xml".data) = '.' :: "xml".data from rfl, List.take_succ_cons] at h10
    have hdot : ('.' : Char) ∈ "ITERATION_".data := by
      rw [h10]
      simp
    revert hdot
    decide
  · have hrtake : r = ("ITERATION_".data) ++ t.take (r.length - ("ITERATION_".data).length) := by
      have h1 : r = (r ++ ".xml".data).take r.length := by
        rw [List.take_left' rfl]
      rw [← hr, ht, List.take_append_eq_append_take,
        List.take_of_length_le (by rw [hIlen]; exact hge)] at h1
      exact h1
    have hlen4 : n.data.length - 4 = r.length := by
      rw [hr, List.length_append, hXlen]
      omega
    have hkeyfinal : (iterationKey n).data = t.take (r.length - ("ITERATION_".data).length) := by
      rw [hkey, hlen4, hr, List.take_left' rfl]
      conv_lhs => rw [hrtake]
      exact List.drop_left' hIlen
    calc n.data = r ++ ".xml".data := hr
      _ = ("ITERATION_".data ++ t.take (r.length - ("ITERATION_".data).length))
            ++ ".xml".data := by rw [← hrtake]
      _ = "ITERATION_".data
            ++ (t.take (r.length - ("ITERATION_".data).length) ++ ".xml".data) := by
        rw [List.append_assoc]
      _ = "ITERATION_".data ++ ((iterationKey n).data ++ ".xml".data) := by rw [hkeyfinal]

theorem matched_name_eq {n : String} (h : globMatch n = true) :
    n = get_long_iteration_name (iterationKey n) ++ "." ++ "xml" := by
  apply String.ext
  rw [bname_data]
  exact glob_decomp h

theorem not_has_empty_of_no_file {c : IterationsComponent}
    (hfile : ∀ f ∈ c.files, f.1 ≠ "ITERATION_.xml") :
    has_iteration c "" = false := by
  by_contra h
  rw [Bool.not_eq_false] at h
  obtain ⟨kv, hkv, hk1, _, _⟩ := find?_dict_of_has h
  obtain ⟨n, hn, hglob, hkveq⟩ := exists_of_mem_dict (List.mem_of_find?_eq_some hkv)
  have hkey : iterationKey n = "" := by
    rw [hkveq] at hk1
    exact hk1
  have hname : n = "ITERATION_.xml" := by
    have h2 := matched_name_eq hglob
    rw [hkey] at h2
    rw [h2]
    decide
  obtain ⟨f, hf, rfl⟩ := List.mem_map.mp hn
  exact hfile f hf hname

theorem has_iteration_append_self {c : IterationsComponent} {k : String}
    (habs : has_iteration c k = false) (ent : Iteration) :
    has_iteration
      ⟨c.folder, c.files ++ [(get_long_iteration_name k ++ "." ++ "xml", ent)]⟩ k = true := by
  rw [has_iteration, dictContains, get_iteration_dict_append, globMatch_of_shape,
    if_pos rfl, List.find?_append, find?_dict_eq_none_of_not_has habs]
  simp [iterationKey_of_shape]

theorem create_new_iteration_of_not_has {c : IterationsComponent} {k : String}
    (solver_name : String) (events_dict : List (String × List String))
    (min_period max_period : Int) (habs : has_iteration c k = false) :
    create_new_iteration c k solver_name events_dict min_period max_period
      = .ok { c with files := c.files
          ++ [(get_long_iteration_name k ++ "." ++ "xml",
               create_iteration_xml_string k solver_name events_dict
                 min_period max_period)] } := by
  have hcond : dictContains (get_iteration_dict c) k = false := habs
  have hnofile := no_file_of_not_has habs
  unfold create_new_iteration
  rw [hcond]
  simp only [Bool.false_eq_true, if_false]
  unfold _get_filename_for_iteration
  rw [writeFileAtPath_pathJoin]
  unfold writeFile
  rw [hnofile]
  simp

theorem create_valueerror_iff (c : IterationsComponent) (k sn : String)
    (ev : List (String × List String)) (mi ma : Int) :
    (∃ m, create_new_iteration c k sn ev mi ma = .error (.ValueError m))
      ↔ has_iteration c k = true := by
  constructor
  · rintro ⟨m, hm⟩
    by_contra hne
    rw [Bool.not_eq_true] at hne
    rw [create_new_iteration_of_not_has sn ev mi ma hne] at hm
    simp at hm
  · intro hT
    have hc : dictContains (get_iteration_dict c) k = true := hT
    exact ⟨"Iteration " ++ k ++ " already exists.", by simp [create_new_iteration, hc]⟩

theorem clone_notfound_iff (c : IterationsComponent) (s d : String) :
    (∃ m, create_successive_iteration c s d = .error (.LASIFNotFoundError m))
      ↔ has_iteration c s = false := by
  constructor
  · rintro ⟨m, hm⟩
    by_contra hne
    rw [Bool.not_eq_false] at hne
    by_cases hd : has_iteration c d = true
    · obtain ⟨kv, it, hkv, hit, _⟩ := get_eq_ok_of_has hne
      have hcd : dictContains (get_iteration_dict c) d = true := hd
      simp [create_successive_iteration, hkv, hcd] at hm
    · rw [Bool.not_eq_true] at hd
      obtain ⟨src, _, hcl⟩ := create_successive_iteration_of_has hne hd
      rw [hcl] at hm
      simp at hm
  · intro hF
    exact ⟨"Iteration " ++ s ++ " does not exists.",
      by simp [create_successive_iteration, find?_dict_eq_none_of_not_has hF]⟩

theorem clone_valueerror_iff (c : IterationsComponent) (s d : String) :
    (∃ m, create_successive_iteration c s d = .error (.ValueError m))
      ↔ (has_iteration c s = true ∧ has_iteration c d = true) := by
  constructor
  · rintro ⟨m, hm⟩
    by_cases hs : has_iteration c s = true
    · refine ⟨hs, ?_⟩
      by_contra hd
      rw [Bool.not_eq_true] at hd
      obtain ⟨src, _, hcl⟩ := create_successive_iteration_of_has hs hd
      rw [hcl] at hm
      simp at hm
    · rw [Bool.not_eq_true] at hs
      simp [create_successive_iteration, find?_dict_eq_none_of_not_has hs] at hm
  · rintro ⟨hs, hd⟩
    obtain ⟨kv, it, hkv, hit, _⟩ := get_eq_ok_of_has hs
    have hcd : dictContains (get_iteration_dict c) d = true := hd
    exact ⟨"Iteration " ++ d ++ " already exists.",
      by simp [create_successive_iteration, hkv, hcd]⟩

theorem get_notfound_iff (c : IterationsComponent) (k : String) :
    (∃ m, get c k = .error (.LASIFNotFoundError m)) ↔ has_iteration c k = false := by
  constructor
  · rintro ⟨m, hm⟩
    by_contra hne
    rw [Bool.not_eq_false] at hne
    obtain ⟨kv, it, hkv, hit, hg⟩ := get_eq_ok_of_has hne
    rw [hg] at hm
    simp at hm
  · intro hF
    exact ⟨"Iteration '" ++ k ++ "' not found.", get_eq_notfound_of_not_has hF⟩

theorem path_eq (folder k : String) :
    pathJoin folder (get_long_iteration_name k ++ "." ++ "xml")
      = folder ++ "/" ++ ("ITERATION_" ++ k ++ ".xml") := by
  apply String.ext
  have h1 : (pathJoin folder (get_long_iteration_name k ++ "." ++ "xml")).data
      = folder.data ++ ['/'] ++ ((("ITERATION_".data ++ k.data) ++ ['.']) ++ ['x', 'm', 'l']) :=
    rfl
  have h2 : (folder ++ "/" ++ ("ITERATION_" ++ k ++ ".xml")).data
      = folder.data ++ ['/'] ++ (("ITERATION_".data ++ k.data) ++ ['.', 'x', 'm', 'l']) := rfl
  rw [h1, h2]
  simp [List.append_assoc]

end IterationsComponent

/-! ## Claim theorems -/

open IterationsComponent

/-- C5: the Naming Scheme round-trips: `long_name(s) = "ITERATION_" + s`, and
the key that `enumerate()` derives from the filename written for `s` — strip
the directory, strip the ".xml" suffix, strip the fixed 10-character
"ITERATION_" prefix — equals `s` again. -/
theorem naming_scheme_roundtrip (s : String) (c : IterationsComponent) :
    get_long_iteration_name s = "ITERATION_" ++ s
    ∧ iterationKey (get_long_iteration_name s ++ "." ++ "xml") = s
    ∧ iterationKey
        ⟨(_get_filename_for_iteration c s).data.drop (c.folder.data.length + 1)⟩ = s := by
  refine ⟨rfl, iterationKey_of_shape s, ?_⟩
  unfold _get_filename_for_iteration
  rw [strip_pathJoin]
  exact iterationKey_of_shape s

/-- C4: `list()` is lexicographically sorted in ascending order and its length
equals `count()`.  Both are recomputed from the registry state on every call:
in this stateless embedding they are plain functions of the current state. -/
theorem list_sorted_and_length_eq_count (c : IterationsComponent) :
    (IterationsComponent.list c).Sorted (· ≤ ·)
    ∧ (IterationsComponent.list c).length = IterationsComponent.count c := by
  constructor
  · exact List.sorted_insertionSort _ _
  · rw [IterationsComponent.list, (List.perm_insertionSort _ _).length_eq,
      IterationsComponent.count, List.length_map]

/-- C1: for every registry state and every short name `k` absent from it,
`create(k, …)` returns successfully, and afterwards `enumerate()` maps `k` to
the file path `<folder>/ITERATION_<k>.xml` and `exists(k)` is true. -/
theorem create_then_enumerate_and_has (c : IterationsComponent)
    (k solver_name : String) (events_dict : List (String × List String))
    (min_period max_period : Int) (habs : has_iteration c k = false) :
    ∃ c', create_new_iteration c k solver_name events_dict min_period max_period = .ok c'
      ∧ dictGet (get_iteration_dict c') k
          = some (c.folder ++ "/" ++ ("ITERATION_" ++ k ++ ".xml"))
      ∧ has_iteration c' k = true := by
  refine ⟨_, create_new_iteration_of_not_has solver_name events_dict
    min_period max_period habs, ?_, ?_⟩
  · rw [dictGet, get_iteration_dict_append, globMatch_of_shape, if_pos rfl,
      List.find?_append, find?_dict_eq_none_of_not_has habs]
    simp [iterationKey_of_shape, path_eq]
  · rw [has_iteration, dictContains, get_iteration_dict_append, globMatch_of_shape,
      if_pos rfl, List.find?_append, find?_dict_eq_none_of_not_has habs]
    simp [iterationKey_of_shape]

/-- Witness for C1: the concrete example registry, where "3" is absent. -/
theorem create_then_enumerate_and_has_witness :
    has_iteration exampleComponent "3" = false
    ∧ ∃ c', create_new_iteration exampleComponent "3" "SES3D_4_1" [] 8 100 = .ok c'
        ∧ dictGet (get_iteration_dict c') "3"
            = some ("ROOT" ++ "/" ++ ("ITERATION_" ++ "3" ++ ".xml"))
        ∧ has_iteration c' "3" = true :=
  ⟨by decide, create_then_enumerate_and_has exampleComponent "3" "SES3D_4_1" [] 8 100
    (by decide)⟩

/-- C3: for every registry in which source name `a` exists and destination
name `b` does not, `clone(a, b)` succeeds; the cloned entity has an empty
comment list regardless of the source's comments, is renamed to `b` and is
stored at the path derived from `b`; the source entity and its file are
untouched — the directory gains exactly the one new file and `get(a)` returns
the same content as before. -/
theorem clone_clears_comments_preserves_source (c : IterationsComponent) (a b : String)
    (ha : has_iteration c a = true) (hb : has_iteration c b = false) :
    ∃ src c', IterationsComponent.get c a = .ok src
      ∧ create_successive_iteration c a b = .ok c'
      ∧ c'.files = c.files ++ [("ITERATION_" ++ b ++ ".xml",
            { src with comments := [], iteration_name := b })]
      ∧ IterationsComponent.get c' b = .ok { src with comments := [], iteration_name := b }
      ∧ IterationsComponent.get c' a = IterationsComponent.get c a := by
  obtain ⟨src, hget, hclone⟩ := create_successive_iteration_of_has ha hb
  have hdict : get_iteration_dict (⟨c.folder, c.files
        ++ [(get_long_iteration_name b ++ "." ++ "xml",
             { src with comments := [], iteration_name := b })]⟩ : IterationsComponent)
      = get_iteration_dict c
        ++ [(b, pathJoin c.folder (get_long_iteration_name b ++ "." ++ "xml"))] := by
    rw [get_iteration_dict_append]
    simp [globMatch_of_shape, iterationKey_of_shape]
  refine ⟨src, _, hget, hclone, ?_, ?_, ?_⟩
  · rw [show (⟨c.folder, c.files ++ [(get_long_iteration_name b ++ "." ++ "xml",
        { src with comments := [], iteration_name := b })]⟩ :
        IterationsComponent).files
      = c.files ++ [(get_long_iteration_name b ++ "." ++ "xml",
          { src with comments := [], iteration_name := b })] from rfl]
    rw [bname_eq]
  · simp only [IterationsComponent.get, hdict, List.find?_append,
      find?_dict_eq_none_of_not_has hb, Option.none_or]
    have hsingle : List.find? (fun kv => kv.1 == b)
        [(b, pathJoin c.folder (get_long_iteration_name b ++ "." ++ "xml"))]
        = some (b, pathJoin c.folder (get_long_iteration_name b ++ "." ++ "xml")) := by
      simp
    rw [hsingle]
    simp only [readFile_append_new hb]
  · obtain ⟨kv, it, hkv, hit, hgetc⟩ := get_eq_ok_of_has ha
    obtain ⟨n, hn, hglob, hkveq⟩ := exists_of_mem_dict (List.mem_of_find?_eq_some hkv)
    have h2 : readFile (⟨c.folder, c.files
          ++ [(get_long_iteration_name b ++ "." ++ "xml",
               { src with comments := [], iteration_name := b })]⟩ : IterationsComponent)
        kv.2 = readFile c kv.2 := by
      rw [hkveq]
      exact readFile_append_old _ hn
    simp only [IterationsComponent.get, hdict, List.find?_append, hkv, Option.or_some, h2]

/-- Witness for C3: cloning the concrete example iteration "1" (which has two
comments) to the absent name "3". -/
theorem clone_clears_comments_preserves_source_witness :
    has_iteration exampleComponent "1" = true
    ∧ has_iteration exampleComponent "3" = false
    ∧ ∃ src c', IterationsComponent.get exampleComponent "1" = .ok src
        ∧ create_successive_iteration exampleComponent "1" "3" = .ok c'
        ∧ c'.files = exampleComponent.files ++ [("ITERATION_" ++ "3" ++ ".xml",
              { src with comments := [], iteration_name := "3" })]
        ∧ IterationsComponent.get c' "3"
            = .ok { src with comments := [], iteration_name := "3" }
        ∧ IterationsComponent.get c' "1" = IterationsComponent.get exampleComponent "1" :=
  ⟨by decide, by decide,
    clone_clears_comments_preserves_source exampleComponent "1" "3" (by decide) (by decide)⟩

/-- C2: the Registry's failure behaviour is exactly the two-kind taxonomy
(`ValueError` plays `AlreadyExists`, `LASIFNotFoundError` plays `NotFound`):
`create(k, …)` fails with `AlreadyExists` iff `exists(k)`; `clone(s, d)` fails
with `NotFound` iff `s` is absent, and with `AlreadyExists` iff `s` and `d`
are both present; `get(k)` fails with `NotFound` iff `k` is absent; and under
the respective preconditions every operation returns successfully, so no
other contract failure occurs. -/
theorem error_taxonomy :
    (∀ (c : IterationsComponent) (k sn : String) (ev : List (String × List String))
        (mi ma : Int),
      ((∃ m, create_new_iteration c k sn ev mi ma = .error (.ValueError m))
          ↔ has_iteration c k = true)
        ∧ (has_iteration c k = false →
            ∃ c', create_new_iteration c k sn ev mi ma = .ok c'))
    ∧ (∀ (c : IterationsComponent) (s d : String),
      ((∃ m, create_successive_iteration c s d = .error (.LASIFNotFoundError m))
          ↔ has_iteration c s = false)
        ∧ ((∃ m, create_successive_iteration c s d = .error (.ValueError m))
            ↔ (has_iteration c s = true ∧ has_iteration c d = true))
        ∧ (has_iteration c s = true → has_iteration c d = false →
            ∃ c', create_successive_iteration c s d = .ok c'))
    ∧ (∀ (c : IterationsComponent) (k : String),
      ((∃ m, IterationsComponent.get c k = .error (.LASIFNotFoundError m))
          ↔ has_iteration c k = false)
        ∧ (has_iteration c k = true → ∃ it, IterationsComponent.get c k = .ok it)) := by
  refine ⟨fun c k sn ev mi ma => ⟨create_valueerror_iff c k sn ev mi ma, fun h =>
      ⟨_, create_new_iteration_of_not_has sn ev mi ma h⟩⟩,
    fun c s d => ⟨clone_notfound_iff c s d, clone_valueerror_iff c s d, fun hs hd => ?_⟩,
    fun c k => ⟨get_notfound_iff c k, fun h => ?_⟩⟩
  · obtain ⟨src, _, hcl⟩ := create_successive_iteration_of_has hs hd
    exact ⟨_, hcl⟩
  · obtain ⟨kv, it, _, _, hg⟩ := get_eq_ok_of_has h
    exact ⟨it, hg⟩

/-- Witness for C2: the taxonomy at the concrete example registry — a name
collision on create, a missing clone source, a successful clone, a missing
get, a successful get. -/
theorem error_taxonomy_witness :
    (∃ m, create_new_iteration exampleComponent "1" "s" [] 0 1 = .error (.ValueError m))
    ∧ (∃ m, create_successive_iteration exampleComponent "9" "8"
        = .error (.LASIFNotFoundError m))
    ∧ (∃ c', create_successive_iteration exampleComponent "1" "2" = .ok c')
    ∧ (∃ m, IterationsComponent.get exampleComponent "9"
        = .error (.LASIFNotFoundError m))
    ∧ (∃ it, IterationsComponent.get exampleComponent "1" = .ok it) :=
  ⟨(error_taxonomy.1 exampleComponent "1" "s" [] 0 1).1.mpr (by decide),
    (error_taxonomy.2.1 exampleComponent "9" "8").1.mpr (by decide),
    (error_taxonomy.2.1 exampleComponent "1" "2").2.2 (by decide) (by decide),
    (error_taxonomy.2.2 exampleComponent "9").1.mpr (by decide),
    (error_taxonomy.2.2 exampleComponent "1").2 (by decide)⟩

/-- C10: no registry operation validates that a short name is non-empty: when
no file `ITERATION_.xml` exists, `create("", …)` succeeds, writes the file
`<folder>/ITERATION_.xml`, and `enumerate()` afterwards contains the empty
string as a key. -/
theorem create_empty_short_name (c : IterationsComponent) (sn : String)
    (ev : List (String × List String)) (mi ma : Int)
    (hfile : ∀ f ∈ c.files, f.1 ≠ "ITERATION_.xml") :
    ∃ c', create_new_iteration c "" sn ev mi ma = .ok c'
      ∧ ("ITERATION_.xml", create_iteration_xml_string "" sn ev mi ma) ∈ c'.files
      ∧ dictGet (get_iteration_dict c') ""
          = some (c.folder ++ "/" ++ "ITERATION_.xml")
      ∧ has_iteration c' "" = true := by
  have habs : has_iteration c "" = false := not_has_empty_of_no_file hfile
  have hbn : get_long_iteration_name "" ++ "." ++ "xml" = "ITERATION_.xml" := by decide
  refine ⟨_, create_new_iteration_of_not_has sn ev mi ma habs, ?_, ?_, ?_⟩
  · rw [show ({ c with files := c.files ++ [(get_long_iteration_name "" ++ "." ++ "xml",
        create_iteration_xml_string "" sn ev mi ma)] } : IterationsComponent).files
      = c.files ++ [(get_long_iteration_name "" ++ "." ++ "xml",
          create_iteration_xml_string "" sn ev mi ma)] from rfl, hbn]
    simp
  · rw [dictGet, get_iteration_dict_append, globMatch_of_shape, if_pos rfl,
      List.find?_append, find?_dict_eq_none_of_not_has habs]
    simp only [iterationKey_of_shape]
    rw [show pathJoin c.folder (get_long_iteration_name "" ++ "." ++ "xml")
      = c.folder ++ "/" ++ "ITERATION_.xml" from by rw [hbn]; rfl]
    simp
  · exact has_iteration_append_self habs _

/-- Witness for C10: the concrete example registry holds no `ITERATION_.xml`
file. -/
theorem create_empty_short_name_witness :
    (∀ f ∈ exampleComponent.files, f.1 ≠ "ITERATION_.xml")
    ∧ ∃ c', create_new_iteration exampleComponent "" "s" [] 1 2 = .ok c'
        ∧ ("ITERATION_.xml", create_iteration_xml_string "" "s" [] 1 2) ∈ c'.files
        ∧ dictGet (get_iteration_dict c') ""
            = some ("ROOT" ++ "/" ++ "ITERATION_.xml")
        ∧ has_iteration c' "" = true :=
  ⟨by decide, create_empty_short_name exampleComponent "s" [] 1 2 (by decide)⟩

/-- C6 (spec-modelled Resolver): command resolution is case-insensitive on
exact matches: the input tokens "info", "INFO" and "InFo" all resolve to, and
dispatch exactly once to, the same handler as the canonical name "info". -/
theorem case_insensitive_resolution :
    resolveCommand commandTable "info" = .Resolved 0
    ∧ resolveCommand commandTable "INFO" = .Resolved 0
    ∧ resolveCommand commandTable "InFo" = .Resolved 0
    ∧ dispatchTrace commandTable "info" = [0]
    ∧ dispatchTrace commandTable "INFO" = [0]
    ∧ dispatchTrace commandTable "InFo" = [0] := by
  refine ⟨rfl, rfl, rfl, rfl, rfl, rfl⟩

/-- C7 (spec-modelled Resolver): the fuzzy suggester reproduces the worked
examples: "infi" yields exactly ["info"]; "plot_eventos" yields exactly the
four candidates, sorted lexicographically ascending. -/
theorem fuzzy_worked_examples :
    resolveCommand commandTable "infi" = (.Unknown ["info"] : Resolution Nat)
    ∧ resolveCommand commandTable "plot_eventos"
        = (.Unknown ["list_events", "plot_event", "plot_events", "plot_windows"]
            : Resolution Nat) := by
  refine ⟨rfl, rfl⟩

/-- C8 (spec-modelled Resolver): for every input token with no exact match the
Resolver returns an `Unknown` outcome — absence of a match is a representable
result, not a raised error — and when no candidate clears the minimum
similarity threshold the candidate list is empty. -/
theorem unknown_resolution (α : Type) (table : List (String × α)) (input : String) :
    ((table.find? (fun e => lowerName e.1 == lowerName input)) = none →
      resolveCommand table input = .Unknown (suggestions (table.map Prod.fst) input))
    ∧ (((table.find? (fun e => lowerName e.1 == lowerName input)) = none
        ∧ ∀ nm ∈ table.map Prod.fst, clearsCutoff (scorePair input nm) = false) →
      resolveCommand table input = .Unknown []) := by
  constructor
  · intro h
    simp [resolveCommand, h]
  · rintro ⟨h, hall⟩
    have hfilter : (table.map Prod.fst).filter
        (fun nm => clearsCutoff (scorePair input nm)) = [] :=
      List.filter_eq_nil_iff.mpr (fun a ha => by simp [hall a ha])
    simp [resolveCommand, h, suggestions, hfilter, sortStrings]

/-- Witness for C8: the gibberish input of the test suite against the
concrete command table yields an empty suggestion list. -/
theorem unknown_resolution_witness :
    resolveCommand commandTable "asdflkjaskldfj" = (.Unknown [] : Resolution Nat) :=
  (unknown_resolution Nat commandTable "asdflkjaskldfj").2 ⟨by decide, by decide⟩

/-- C9 (spec-modelled Status Aggregator): one event with 4 total stations, 0
processed, 2 with synthetics and picked-window fraction 0 produces exactly the
header for 1 event, the event identifier, the percentage line, the
"Lacks processed data for 4 stations" line and the
"Lacks synthetic data for 2 stations" line, in that order; once the processed
count reaches the total the "Lacks processed data" line is omitted while the
other three lines persist. -/
theorem iteration_status_report :
    iteration_status "1" [⟨"GCMT_event_TURKEY_Mag_5.1_2010-3-24-14-11", 0, 2, 4, 0⟩]
      = ["Iteration 1 is defined for 1 events:",
         "GCMT_event_TURKEY_Mag_5.1_2010-3-24-14-11",
         "0.00 % of the events stations have picked windows",
         "Lacks processed data for 4 stations",
         "Lacks synthetic data for 2 stations"]
    ∧ iteration_status "1" [⟨"GCMT_event_TURKEY_Mag_5.1_2010-3-24-14-11", 4, 2, 4, 0⟩]
      = ["Iteration 1 is defined for 1 events:",
         "GCMT_event_TURKEY_Mag_5.1_2010-3-24-14-11",
         "0.00 % of the events stations have picked windows",
         "Lacks synthetic data for 2 stations"] := by
  refine ⟨rfl, rfl⟩

end Lasif
